import Mathlib

/-!
Shallow embedding of `server.go` from the reVCDOS repository: an edge-caching
reverse proxy for game assets.  Pure Go string functions become Lean functions
over `String` (backed by `List Char`); the filesystem, the upstream HTTP
exchange and the shared in-flight map become explicit inputs and outputs;
brotli and gzip decompression are opaque stream transformations and are
passed in as function parameters.  Byte streams are `List Nat`.
-/

/-- Model of Go `strings.Contains s sub`: `sub` occurs as a contiguous
substring of `s` (used by the traversal filter, server.go:265 and 306, and
for Accept-Encoding sniffing, server.go:333-334). -/
def containsStr (s sub : String) : Bool := decide (sub.data <:+: s.data)

/-- Model of Go `strings.HasSuffix s suf`. -/
def hasSfx (s suf : String) : Bool := List.isSuffixOf suf.data s.data

/-- Model of Go `strings.TrimSuffix s suf`: drop the suffix when present,
otherwise return `s` unchanged. -/
def trimSfx (s suf : String) : String :=
  if hasSfx s suf then ⟨s.data.take (s.data.length - suf.data.length)⟩ else s

/-- Model of Go `strings.TrimPrefix s pre`: drop the leading `pre` when
present, otherwise return `s` unchanged. -/
def trimPfx (s pre : String) : String :=
  if List.isPrefixOf pre.data s.data then ⟨s.data.drop pre.data.length⟩ else s

/-- Model of Go `strings.ToLower` (character-wise lowering; the headers the
server inspects are ASCII). -/
def toLowerStr (s : String) : String := ⟨s.data.map Char.toLower⟩

/-- Model of Go `filepath.Join a b`.  The Go function additionally cleans the
joined result; no claim inspects the joined value itself, so the model keeps
the plain concatenation with one separator. -/
def filepathJoin (a b : String) : String := a ++ "/" ++ b

/-- Path segments of a character list, split at every slash.  This is a
spec-side notion (the code never splits paths into segments); it is used to
compare the parent-directory-segment wording of the spec against the
substring filter that the code actually runs. -/
def splitSeg : List Char → List (List Char)
  | [] => [[]]
  | c :: rest =>
    if c = '/' then [] :: splitSeg rest
    else
      match splitSeg rest with
      | [] => [[c]]
      | s :: ss => (c :: s) :: ss

/-- Modelled from the spec: a path contains a parent-directory segment when
some whole slash-separated segment is exactly "..". -/
def hasParentSeg (s : String) : Bool :=
  (splitSeg s.data).any fun seg => seg == [Char.ofNat 46, Char.ofNat 46]

/-- Result of one `os.Stat` call: the path does not exist, the stat failed
with some other error, or the path is a directory or a regular file with the
given byte content. -/
inductive StatRes where
  | notExist
  | statErr
  | dir
  | file (content : List Nat)
deriving DecidableEq

/-- Response produced by `serveLocalFile` when it handles the request:
the file actually opened, the `Content-Encoding` header value sent ("" for
none), the body bytes sent, and whether an on-the-fly brotli decompression
took place. -/
structure Served where
  path : String
  encoding : String
  body : List Nat
  decompressed : Bool
deriving DecidableEq

/-- Outcome of `serveLocalFile`: `notHandled` models returning `false`
(caller falls through to the proxy), the other two model returning `true`. -/
inductive ServeOutcome where
  | notHandled
  | internalError
  | ok (s : Served)
deriving DecidableEq

/-- Tail of `serveLocalFile` (server.go:391-414): once a `servePath` and an
`encoding` are chosen, decompress brotli on the fly when the client did not
declare brotli support (re-opening the file, which may fail), otherwise send
the file as-is with the encoding header. -/
def serveChosen (brDecode : List Nat → List Nat) (fs : String → StatRes)
    (clientAcceptsBr : Bool) (servePath encoding : String) (content : List Nat) :
    ServeOutcome :=
  if encoding = "br" ∧ clientAcceptsBr = false then
    match fs servePath with
    | .file c => .ok ⟨servePath, "", brDecode c, true⟩
    | _ => .internalError
  else
    .ok ⟨servePath, encoding, content, false⟩

/-- Model of `serveLocalFile` (server.go:331-415).  `fs` is the snapshot of
the local cache tree consulted by `os.Stat` and `os.Open`; `brDecode` is the
brotli stream decoder. -/
def serveLocalFile (brDecode : List Nat → List Nat) (fs : String → StatRes)
    (acceptEncoding localPath : String) : ServeOutcome :=
  let acceptEnc := toLowerStr acceptEncoding
  let clientAcceptsBr := containsStr acceptEnc "br"
  let clientAcceptsGzip := containsStr acceptEnc "gzip"
  let basePath := trimSfx (trimSfx localPath ".br") ".gz"
  let isBrFile := hasSfx localPath ".br"
  let isGzFile := hasSfx localPath ".gz"
  let tryBr : Option (String × String × List Nat) :=
    if clientAcceptsBr then
      match fs (basePath ++ ".br") with
      | .file c => some (basePath ++ ".br", "br", c)
      | _ => none
    else none
  let tryGz : Option (String × String × List Nat) :=
    if clientAcceptsGzip then
      match fs (basePath ++ ".gz") with
      | .file c => some (basePath ++ ".gz", "gzip", c)
      | _ => none
    else none
  match tryBr with
  | some (servePath, encoding, c) =>
    serveChosen brDecode fs clientAcceptsBr servePath encoding c
  | none =>
    match tryGz with
    | some (servePath, encoding, c) =>
      serveChosen brDecode fs clientAcceptsBr servePath encoding c
    | none =>
      match fs localPath with
      | .notExist => .notHandled
      | .statErr => .internalError
      | .dir => .notHandled
      | .file c =>
        let encoding := if isBrFile then "br" else if isGzFile then "gzip" else ""
        serveChosen brDecode fs clientAcceptsBr localPath encoding c

/-- Routing decision of `handleRoot` (server.go:255-286): serve the index on
"/", reject paths whose remainder contains "..", otherwise serve the embedded
static file. -/
inductive RootStep where
  | index
  | notFound
  | serveEmbedded (filePath : String)
deriving DecidableEq

/-- Model of the routing part of `handleRoot` (server.go:255-286). -/
def handleRootRoute (urlPath : String) : RootStep :=
  if urlPath = "/" then .index
  else
    let cleanedPath := trimPfx urlPath "/"
    if containsStr cleanedPath ".." then .notFound
    else .serveEmbedded ("dist/" ++ cleanedPath)

/-- Routing decision of `handleVcsky` (server.go:302-326): either the
traversal filter fires (NotFound, nothing else runs), or the handler
proceeds to the filesystem/proxy layer with the computed local path and
origin URL. -/
inductive VcskyStep where
  | notFound
  | proceed (localPath url : String)
deriving DecidableEq

/-- Model of the routing part of `handleVcsky` (server.go:302-326).  The
filesystem is untouched here: only `VcskyStep.proceed` hands a path onward
to `serveLocalFile` / `proxyAndCache`. -/
def handleVcskyRoute (downloadDir cdn urlPath rawQuery : String) : VcskyStep :=
  let path := trimPfx urlPath "/vcsky/"
  if containsStr path ".." then .notFound
  else
    let localPath := filepathJoin downloadDir path
    let url := if rawQuery = "" then cdn ++ path else cdn ++ path ++ "?" ++ rawQuery
    .proceed localPath url

/-- Hard cap on proxied downloads, server.go:33: 500 MiB. -/
def maxProxySize : Nat := 500 * 1024 * 1024

/-- Byte stream delivered by an origin response body: the bytes the origin
sends, plus whether the stream terminates with a read error instead of a
clean EOF. -/
structure Body where
  bytes : List Nat
  readErr : Bool
deriving DecidableEq

/-- Model of Go `io.LimitReader r n` (server.go:459): at most `n` bytes are
delivered; once `n` bytes have been read every further read reports EOF, so
neither extra bytes nor an error occurring after the limit is ever
observed. -/
def limitBody (n : Nat) (b : Body) : Body :=
  if n ≤ b.bytes.length then ⟨b.bytes.take n, false⟩ else b

/-- Upstream HTTP response as seen by `proxyAndCache`: status code, declared
`Content-Length` (-1 when the length is unknown, as in Go), and the body
stream. -/
structure UpResp where
  status : Nat
  contentLength : Int
  body : Body

/-- Environment of one `proxyAndCache` call: the local-cache snapshot, the
in-flight peek result, whether building the upstream request fails, the
upstream exchange (`none` = connection error), and the success of the local
side effects (mkdir, temp-file creation, writes to temp and client, rename).
`partialLen` is the length of the prefix already delivered when a mid-stream
error aborts the copy. -/
structure ProxyEnv where
  fs : String → StatRes
  alreadyDownloading : Bool
  reqErr : Bool
  upstream : Option UpResp
  mkdirOK : Bool
  tempOK : Bool
  tempWriteErr : Bool
  clientWriteErr : Bool
  partialLen : Nat
  renameOK : Bool

/-- Fate of the cache temp file in one `proxyAndCache` call. -/
inductive TempFate where
  | noTemp
  | renamed
  | removed
deriving DecidableEq

/-- Observable outcome of a `proxyAndCache` call that reached the response
stage: status sent, body bytes the client received, the file committed at
`localPath` (if any), what happened to the temp file, and whether the copy
loop logged an error. -/
structure ProxyOut where
  status : Nat
  clientBody : List Nat
  committed : Option (List Nat)
  tempFate : TempFate
  errLogged : Bool
deriving DecidableEq

/-- Result of `proxyAndCache`: served from the local cache by the re-check,
failed before/at the upstream fetch, rejected by the declared-length cap, or
a streamed response. -/
inductive ProxyResult where
  | servedLocal (o : ServeOutcome)
  | reqError
  | upstreamErr
  | tooLarge
  | out (o : ProxyOut)
deriving DecidableEq

/-- Committed cache file of a `proxyAndCache` result, if any. -/
def ProxyResult.committedFile : ProxyResult → Option (List Nat)
  | .out o => o.committed
  | _ => none

/-- Temp-file fate of a `proxyAndCache` result (`noTemp` when the call ended
before a temp file was created). -/
def ProxyResult.tempOutcome : ProxyResult → TempFate
  | .out o => o.tempFate
  | _ => .noTemp

/-- Model of the plain passthrough copy (server.go:481-490, 497-507, 515-524,
533-542): the limited body is copied to the client, decompressed when
`needDecompress`; a read or client-write error truncates the stream at
`partialLen` and is logged. -/
def deliver (brDecode : List Nat → List Nat) (needDecompress : Bool) (b : Body)
    (clientWriteErr : Bool) (partialLen : Nat) : List Nat × Bool :=
  let sent := if needDecompress then brDecode b.bytes else b.bytes
  if b.readErr || clientWriteErr then (sent.take partialLen, true) else (sent, false)

/-- Model of the shared tee pass (server.go:549-561): one read pass over the
limited body feeds the temp file with the raw bytes while the client receives
the same stream, decompressed when `needDecompress`.  Any read error, temp
write error or client write error aborts the pass with `copyErr = true` and
leaves only prefixes behind.  Returns (temp bytes, client bytes, copyErr). -/
def teePass (brDecode : List Nat → List Nat) (needDecompress : Bool) (b : Body)
    (tempWriteErr clientWriteErr : Bool) (partialLen : Nat) :
    List Nat × List Nat × Bool :=
  let client := if needDecompress then brDecode b.bytes else b.bytes
  if b.readErr || tempWriteErr || clientWriteErr then
    (b.bytes.take partialLen, client.take partialLen, true)
  else
    (b.bytes, client, false)

/-- Model of `proxyAndCache` (server.go:417-576).  The single `env.upstream`
field reflects that the function performs at most one origin fetch. -/
def proxyAndCache (brDecode : List Nat → List Nat) (env : ProxyEnv)
    (acceptEncoding url localPath : String) : ProxyResult :=
  match serveLocalFile brDecode env.fs acceptEncoding localPath with
  | .internalError => .servedLocal .internalError
  | .ok s => .servedLocal (.ok s)
  | .notHandled =>
    if env.reqErr then .reqError
    else
      match env.upstream with
      | none => .upstreamErr
      | some resp =>
        if (maxProxySize : Int) < resp.contentLength then .tooLarge
        else
          let limited := limitBody maxProxySize resp.body
          let needDecompress :=
            hasSfx url ".br" && !(containsStr (toLowerStr acceptEncoding) "br")
          if resp.status ≠ 200 then
            let (sent, e) :=
              deliver brDecode needDecompress limited env.clientWriteErr env.partialLen
            .out ⟨resp.status, sent, none, .noTemp, e⟩
          else if env.alreadyDownloading then
            let (sent, e) :=
              deliver brDecode needDecompress limited env.clientWriteErr env.partialLen
            .out ⟨200, sent, none, .noTemp, e⟩
          else if !env.mkdirOK then
            let (sent, e) :=
              deliver brDecode needDecompress limited env.clientWriteErr env.partialLen
            .out ⟨200, sent, none, .noTemp, e⟩
          else if !env.tempOK then
            let (sent, e) :=
              deliver brDecode needDecompress limited env.clientWriteErr env.partialLen
            .out ⟨200, sent, none, .noTemp, e⟩
          else
            let (tempBytes, clientBytes, copyErr) :=
              teePass brDecode needDecompress limited env.tempWriteErr
                env.clientWriteErr env.partialLen
            if copyErr then
              .out ⟨200, clientBytes, none, .removed, true⟩
            else if env.renameOK then
              .out ⟨200, clientBytes, some tempBytes, .renamed, false⟩
            else
              .out ⟨200, clientBytes, none, .removed, false⟩

/-- Full `handleVcsky` pipeline (server.go:302-327): the traversal guard,
then `serveLocalFile`, then `proxyAndCache` on a miss.  `none` models the
NotFound response of the traversal guard, produced before any path reaches
the filesystem layer. -/
def handleVcsky (brDecode : List Nat → List Nat) (env : ProxyEnv)
    (downloadDir cdn urlPath rawQuery acceptEncoding : String) :
    Option ProxyResult :=
  match handleVcskyRoute downloadDir cdn urlPath rawQuery with
  | .notFound => none
  | .proceed localPath url =>
    match serveLocalFile brDecode env.fs acceptEncoding localPath with
    | .notHandled => some (proxyAndCache brDecode env acceptEncoding url localPath)
    | r => some (.servedLocal r)

/-- Model of `activeDownloads.LoadOrStore(p, true)` (server.go:587): the
shared in-flight map holds the set of claimed destination paths; the call is
one atomic check-and-set.  Returns (claim succeeded, new map).  In Go,
`loaded = true` means the key was already present, i.e. the claim failed. -/
def tryClaim (p : String) (s : List String) : Bool × List String :=
  if p ∈ s then (false, s) else (true, p :: s)

/-- Model of `activeDownloads.Delete(p)` (server.go:590). -/
def releaseClaim (p : String) (s : List String) : List String := s.erase p

/-- Counts how many of `n` consecutive atomic claim attempts on the same path
succeed, starting from map state `s`.  Because each `LoadOrStore` is atomic,
any interleaving of `n` concurrent claimers is some sequential order of their
attempts, which this function ranges over. -/
def claimAttempts (p : String) : Nat → List String → Nat
  | 0, _ => 0
  | n + 1, s =>
    let t := tryClaim p s
    (if t.1 then 1 else 0) + claimAttempts p n t.2

/-- Upstream response as seen by `downloadFile`: status, the
`Content-Encoding` response header, and the raw body bytes. -/
structure DLResp where
  status : Nat
  contentEncoding : String
  body : List Nat
deriving DecidableEq

/-- Environment of one `downloadFile` call: the two existence checks on
`destPath` (before and after claiming), and the outcome of each fallible
step (mkdir, request construction, the HTTP exchange, temp-file creation,
the copy, the final rename). -/
structure DLEnv where
  stat1Exists : Bool
  stat2Exists : Bool
  mkdirOK : Bool
  reqErr : Bool
  upstream : Option DLResp
  createOK : Bool
  copyErr : Bool
  renameOK : Bool

/-- Error cases of `downloadFile`, one per `return err` site. -/
inductive DLErr where
  | mkdir
  | newReq
  | doReq
  | badStatus (n : Nat)
  | gzipHdr
  | create
  | copy
  | rename
deriving DecidableEq

/-- Outcome of `downloadFile`: `ok` models returning nil. -/
inductive DLOutcome where
  | ok
  | err (e : DLErr)
deriving DecidableEq

/-- Full observable result of a `downloadFile` call: the returned error (if
any), whether the network was used (`httpClient.Do` reached), the file this
call committed at `destPath` (if any), and the in-flight map afterwards. -/
structure DLRun where
  outcome : DLOutcome
  network : Bool
  destFile : Option (List Nat)
  claims : List String
deriving DecidableEq

/-- Body of `downloadFile` after a successful claim (server.go:592-646):
re-check existence, mkdir, build and issue the request, check the status,
pick the decoder from the Content-Encoding header (`gzDecode` returns `none`
for a bad gzip header, modeling the eager `gzip.NewReader` failure), write
the decoded bytes to `destPath + ".tmp"`, rename into place.  Returns
(outcome, network used, file committed). -/
def downloadFileBody (brDecode : List Nat → List Nat)
    (gzDecode : List Nat → Option (List Nat)) (env : DLEnv) :
    DLOutcome × Bool × Option (List Nat) :=
  if env.stat2Exists then (.ok, false, none)
  else if !env.mkdirOK then (.err .mkdir, false, none)
  else if env.reqErr then (.err .newReq, false, none)
  else
    match env.upstream with
    | none => (.err .doReq, true, none)
    | some resp =>
      if resp.status ≠ 200 then (.err (.badStatus resp.status), true, none)
      else
        let decoded : Option (List Nat) :=
          if resp.contentEncoding = "br" then some (brDecode resp.body)
          else if resp.contentEncoding = "gzip" then gzDecode resp.body
          else some resp.body
        match decoded with
        | none => (.err .gzipHdr, true, none)
        | some bodyBytes =>
          if !env.createOK then (.err .create, true, none)
          else if env.copyErr then (.err .copy, true, none)
          else if env.renameOK then (.ok, true, some bodyBytes)
          else (.err .rename, true, none)

/-- Model of `downloadFile` (server.go:580-647): skip when the file already
exists, claim the destination path (deferring to a concurrent fetch when the
claim fails), run the body, and release the claim on the way out (the
deferred `Delete`). -/
def downloadFile (brDecode : List Nat → List Nat)
    (gzDecode : List Nat → Option (List Nat)) (env : DLEnv)
    (url destPath : String) (claims : List String) : DLRun :=
  if env.stat1Exists then ⟨.ok, false, none, claims⟩
  else
    let t := tryClaim destPath claims
    if t.1 then
      let (o, net, f) := downloadFileBody brDecode gzDecode env
      ⟨o, net, f, releaseClaim destPath t.2⟩
    else
      ⟨.ok, false, none, t.2⟩

/-- Per-item worker counters of `downloadWithWorkers` (server.go:699). -/
structure WCounters where
  downloaded : Nat
  skipped : Nat
  failed : Nat
deriving DecidableEq

/-- Per-item environment inside a bulk run: the existence pre-check done by
the worker itself (server.go:714) and the environment of the delegated
`downloadFile` call. -/
structure WItemEnv where
  statExists : Bool
  dl : DLEnv

/-- One worker-loop iteration of `downloadWithWorkers` (server.go:710-729):
skip when the destination already exists, otherwise delegate to
`downloadFile` and count the outcome.  The in-flight map is threaded
through because `downloadFile` touches the shared `activeDownloads`. -/
def workerStep (brDecode : List Nat → List Nat)
    (gzDecode : List Nat → Option (List Nat)) (ienv : String → WItemEnv)
    (baseURL outputDir : String) (acc : WCounters × List String)
    (file : String) : WCounters × List String :=
  let c := acc.1
  let s := acc.2
  let e := ienv file
  let destPath := filepathJoin outputDir file
  if e.statExists then ({ c with skipped := c.skipped + 1 }, s)
  else
    let url := baseURL ++ "/" ++ file
    let r := downloadFile brDecode gzDecode e.dl url destPath s
    match r.outcome with
    | .ok => ({ c with downloaded := c.downloaded + 1 }, r.claims)
    | .err _ => ({ c with failed := c.failed + 1 }, r.claims)

/-- Model of `downloadWithWorkers` (server.go:697-751).  The worker pool
drains the queue with each item handled by exactly one worker and each
counter update atomic, so the aggregate counters equal those of a fold over
the item list in queue order.  The returned error is `some (failed, total)`,
modeling the aggregate message naming the failure count, exactly when
`failed > 0`. -/
def downloadWithWorkers (brDecode : List Nat → List Nat)
    (gzDecode : List Nat → Option (List Nat)) (ienv : String → WItemEnv)
    (files : List String) (baseURL outputDir : String) (claims0 : List String) :
    WCounters × Option (Nat × Nat) :=
  let r := files.foldl (workerStep brDecode gzDecode ienv baseURL outputDir)
    (⟨0, 0, 0⟩, claims0)
  (r.1, if 0 < r.1.failed then some (r.1.failed, files.length) else none)

/-- Sum of the three worker counters. -/
def WCounters.total (c : WCounters) : Nat := c.downloaded + c.skipped + c.failed

/-- Concrete environment for the C1 instances: cache miss everywhere, a
status-200 upstream response with unknown length (-1) whose body is one byte
longer than the cap, and all local side effects succeeding. -/
def c1Env : ProxyEnv :=
  ⟨fun _ => StatRes.notExist, false, false,
    some ⟨200, -1, ⟨List.replicate (maxProxySize + 1) 0, false⟩⟩,
    true, true, false, false, 0, true⟩

/-- Upstream response inside `c1Env`. -/
def c1Resp : UpResp := ⟨200, -1, ⟨List.replicate (maxProxySize + 1) 0, false⟩⟩

/-- Concrete tee-branch environment for the C4 witness. -/
def c4Env : ProxyEnv :=
  ⟨fun _ => StatRes.notExist, false, false, some ⟨200, 2, ⟨[1, 2], false⟩⟩,
    true, true, false, false, 0, true⟩

/-- Upstream response inside `c4Env`. -/
def c4Resp : UpResp := ⟨200, 2, ⟨[1, 2], false⟩⟩

/-- Concrete environment for the C7 witness: a two-byte brotli body. -/
def c7Env : ProxyEnv :=
  ⟨fun _ => StatRes.notExist, false, false, some ⟨200, -1, ⟨[5, 6], false⟩⟩,
    true, true, false, false, 0, true⟩

/-- Upstream response inside `c7Env`. -/
def c7Resp : UpResp := ⟨200, -1, ⟨[5, 6], false⟩⟩

/-- Per-item environment for the C8 witness: item "a" already exists on
disk, item "b" hits a connection error. -/
def c8IEnv : String → WItemEnv := fun f =>
  if f = "a" then ⟨true, ⟨false, false, true, false, none, true, false, true⟩⟩
  else ⟨false, ⟨false, false, true, false, none, true, false, true⟩⟩

/-! Helper lemmas about the traversal filter. -/

/-- Every list produced by `splitSeg` is nonempty, its head is a prefix of
the input and every later segment is an infix of the input. -/
theorem splitSeg_spec (l : List Char) :
    ∃ s ss, splitSeg l = s :: ss ∧ s <+: l ∧ ∀ t ∈ ss, t <:+: l := by
  induction l with
  | nil => exact ⟨[], [], rfl, List.nil_prefix, by simp⟩
  | cons c rest ih =>
    obtain ⟨s, ss, hsplit, hpfx, hinf⟩ := ih
    by_cases hc : c = '/'
    · refine ⟨[], splitSeg rest, by simp [splitSeg, hc], List.nil_prefix, ?_⟩
      intro t ht
      rw [hsplit] at ht
      rcases List.mem_cons.1 ht with h1 | h2
      · exact List.infix_cons (h1 ▸ hpfx.isInfix)
      · exact List.infix_cons (hinf t h2)
    · refine ⟨c :: s, ss, by simp [splitSeg, hc, hsplit], ?_, ?_⟩
      · obtain ⟨t, ht⟩ := hpfx
        exact ⟨t, by simp [ht]⟩
      · intro t ht
        exact List.infix_cons (hinf t ht)

/-- Every segment returned by `splitSeg` occurs contiguously in the input. -/
theorem mem_splitSeg_infix {seg : List Char} {l : List Char}
    (h : seg ∈ splitSeg l) : seg <:+: l := by
  obtain ⟨s, ss, hsplit, hpfx, hinf⟩ := splitSeg_spec l
  rw [hsplit] at h
  rcases List.mem_cons.1 h with h1 | h2
  · exact h1 ▸ hpfx.isInfix
  · exact hinf seg h2

/-- A path with a whole parent-directory segment in particular contains the
two-character sequence ".." as a substring, so the substring filter of the
code is at least as strict as the segment-wise rejection of the spec. -/
theorem hasParentSeg_containsStr {p : String} (h : hasParentSeg p = true) :
    containsStr p ".." = true := by
  have hdots : (".." : String).data = [Char.ofNat 46, Char.ofNat 46] := by decide
  unfold hasParentSeg at h
  obtain ⟨seg, hmem, hbeq⟩ := List.any_eq_true.1 h
  have hseg : seg = [Char.ofNat 46, Char.ofNat 46] := eq_of_beq hbeq
  unfold containsStr
  rw [hdots, decide_eq_true_iff]
  exact hseg ▸ mem_splitSeg_infix hmem

/-- When the stripped request path contains "..", `handleVcsky` answers
NotFound whatever the filesystem and upstream environment look like. -/
theorem vcskyFilter_notFound (brDecode : List Nat → List Nat) (env : ProxyEnv)
    (dd cdn urlPath q ae : String)
    (h : containsStr (trimPfx urlPath "/vcsky/") ".." = true) :
    handleVcsky brDecode env dd cdn urlPath q ae = none := by
  unfold handleVcsky handleVcskyRoute
  simp [h]

/-- C3: a request whose path, after stripping the "/vcsky/" prefix, contains
a parent-directory segment is answered NotFound (`none`) by `handleVcsky`,
and the routing step already stops at `VcskyStep.notFound`.  The environment
`env` — which carries the entire filesystem and upstream world — is
universally quantified and the answer never depends on it, so no stat, open,
write or proxy fetch is performed on the path: only `VcskyStep.proceed`
forwards a path to the filesystem layer, and it is never produced here. -/
theorem c3_parent_segment_notfound (brDecode : List Nat → List Nat)
    (env : ProxyEnv) (dd cdn urlPath q ae : String)
    (h : hasParentSeg (trimPfx urlPath "/vcsky/") = true) :
    handleVcsky brDecode env dd cdn urlPath q ae = none ∧
    handleVcskyRoute dd cdn urlPath q = .notFound := by
  have hc := hasParentSeg_containsStr h
  refine ⟨vcskyFilter_notFound brDecode env dd cdn urlPath q ae hc, ?_⟩
  unfold handleVcskyRoute
  simp [hc]

/-- Witness for C3 at a concrete traversal request. -/
theorem c3_witness :
    handleVcsky (fun l => l)
      ⟨fun _ => StatRes.notExist, false, false, none, true, true, false, false, 0, true⟩
      "cache" "https://cdn/" "/vcsky/a/../b" "" "" = none ∧
    handleVcskyRoute "cache" "https://cdn/" "/vcsky/a/../b" "" = .notFound :=
  c3_parent_segment_notfound (fun l => l)
    ⟨fun _ => StatRes.notExist, false, false, none, true, true, false, false, 0, true⟩
    "cache" "https://cdn/" "/vcsky/a/../b" "" "" (by decide)

/-! Helper lemmas about the Go suffix functions. -/

/-- Trimming a suffix that is literally appended recovers the base string. -/
theorem trimSfx_append (a suf : String) : trimSfx (a ++ suf) suf = a := by
  unfold trimSfx hasSfx
  rw [String.data_append, if_pos (List.isSuffixOf_iff_suffix.2 (List.suffix_append _ _))]
  have h : (a.data ++ suf.data).take ((a.data ++ suf.data).length - suf.data.length) =
      a.data := by
    rw [List.length_append, Nat.add_sub_cancel]
    exact List.take_left' rfl
  rw [h]

/-- Trimming an absent suffix is the identity. -/
theorem trimSfx_of_no_sfx {s suf : String} (h : hasSfx s suf = false) :
    trimSfx s suf = s := by
  unfold trimSfx
  simp [h]

/-- An appended suffix is detected by `hasSfx`. -/
theorem hasSfx_append_self (a suf : String) : hasSfx (a ++ suf) suf = true := by
  unfold hasSfx
  rw [String.data_append]
  exact List.isSuffixOf_iff_suffix.2 (List.suffix_append _ _)

/-- A string ending in ".gz" does not end in ".br". -/
theorem hasSfx_append_gz_br (a : String) : hasSfx (a ++ ".gz") ".br" = false := by
  unfold hasSfx
  rw [String.data_append]
  by_contra hcon
  rw [Bool.not_eq_false] at hcon
  obtain ⟨t, ht⟩ := List.isSuffixOf_iff_suffix.1 hcon
  have heq := (List.append_inj' ht (by decide)).2
  exact absurd heq (by decide)

/-- C2: `serveLocalFile` asymmetry between the compressed variants.  When
only the brotli variant of a logical asset exists in the cache (variant
files are addressed by their on-disk name, i.e. the request path carries the
".br" suffix, compare the suffix test of server.go:469) and the client does
not declare brotli support, the file is served decompressed on the fly —
a success, not NotFound.  When only the gzip variant exists and the client
does not declare gzip support, no such fallback runs: the raw gzip bytes are
served with a gzip encoding header, never decompressed. -/
theorem c2_br_fallback_asymmetry (brDecode : List Nat → List Nat)
    (name ae : String)
    (hbr : hasSfx name ".br" = false) (hgz : hasSfx name ".gz" = false) :
    (∀ (fs : String → StatRes) (c : List Nat),
      fs (name ++ ".br") = .file c → fs name = .notExist →
      fs (name ++ ".gz") = .notExist →
      containsStr (toLowerStr ae) "br" = false →
      serveLocalFile brDecode fs ae (name ++ ".br") =
        .ok ⟨name ++ ".br", "", brDecode c, true⟩) ∧
    (∀ (fs : String → StatRes) (c : List Nat),
      fs (name ++ ".gz") = .file c → fs name = .notExist →
      fs (name ++ ".br") = .notExist →
      containsStr (toLowerStr ae) "gzip" = false →
      serveLocalFile brDecode fs ae (name ++ ".gz") =
        .ok ⟨name ++ ".gz", "gzip", c, false⟩) := by
  constructor
  · intro fs c hfsBr hfsName hfsGz hae
    have hbase : trimSfx (trimSfx (name ++ ".br") ".br") ".gz" = name := by
      rw [trimSfx_append]
      exact trimSfx_of_no_sfx hgz
    unfold serveLocalFile serveChosen
    simp only [hbase, hae, hfsBr, hfsGz, hfsName, hasSfx_append_self,
      Bool.false_eq_true, if_false, ite_self]
    simp [hfsBr]
  · intro fs c hfsGz hfsName hfsBr hae
    have hbase : trimSfx (trimSfx (name ++ ".gz") ".br") ".gz" = name := by
      rw [trimSfx_of_no_sfx (hasSfx_append_gz_br name)]
      exact trimSfx_append name ".gz"
    unfold serveLocalFile serveChosen
    simp only [hbase, hae, hfsBr, hfsGz, hfsName, hasSfx_append_self,
      hasSfx_append_gz_br, Bool.false_eq_true, if_false, ite_self]
    simp [hfsGz]

/-- Witness for C2 at the concrete asset "foo.js" with tiny byte bodies. -/
theorem c2_witness :
    serveLocalFile (fun l => 9 :: l)
      (fun p => if p = "foo.js.br" then StatRes.file [1, 2] else StatRes.notExist)
      "" ("foo.js" ++ ".br") = .ok ⟨"foo.js" ++ ".br", "", [9, 1, 2], true⟩ ∧
    serveLocalFile (fun l => 9 :: l)
      (fun p => if p = "foo.js.gz" then StatRes.file [3] else StatRes.notExist)
      "" ("foo.js" ++ ".gz") = .ok ⟨"foo.js" ++ ".gz", "gzip", [3], false⟩ :=
  ⟨(c2_br_fallback_asymmetry (fun l => 9 :: l) "foo.js" "" (by decide) (by decide)).1
      (fun p => if p = "foo.js.br" then StatRes.file [1, 2] else StatRes.notExist)
      [1, 2] (by decide) (by decide) (by decide) (by decide),
   (c2_br_fallback_asymmetry (fun l => 9 :: l) "foo.js" "" (by decide) (by decide)).2
      (fun p => if p = "foo.js.gz" then StatRes.file [3] else StatRes.notExist)
      [3] (by decide) (by decide) (by decide) (by decide)⟩

/-! Helper lemmas about the proxy streaming pass. -/

/-- Characterization of `proxyAndCache` on the shared tee branch: local
miss, request built, upstream response within the declared-length cap,
status 200, no concurrent background download, cache directory and temp file
created.  The result is determined by the tee pass and the rename. -/
theorem proxy_stream_eq (brDecode : List Nat → List Nat) (env : ProxyEnv)
    (ae url lp : String) (resp : UpResp) (tb cb : List Nat) (ce : Bool)
    (hmiss : serveLocalFile brDecode env.fs ae lp = .notHandled)
    (hreq : env.reqErr = false)
    (hup : env.upstream = some resp)
    (hcl : resp.contentLength ≤ (maxProxySize : Int))
    (hst : resp.status = 200)
    (had : env.alreadyDownloading = false)
    (hmk : env.mkdirOK = true)
    (htmp : env.tempOK = true)
    (htee : teePass brDecode (hasSfx url ".br" && !(containsStr (toLowerStr ae) "br"))
      (limitBody maxProxySize resp.body) env.tempWriteErr env.clientWriteErr
      env.partialLen = (tb, cb, ce)) :
    proxyAndCache brDecode env ae url lp =
      if ce then .out ⟨200, cb, none, .removed, true⟩
      else if env.renameOK then .out ⟨200, cb, some tb, .renamed, false⟩
      else .out ⟨200, cb, none, .removed, false⟩ := by
  have hnotlt : ¬ ((maxProxySize : Int) < resp.contentLength) := not_lt.2 hcl
  unfold proxyAndCache
  simp only [hmiss, hreq, hup, hnotlt, hst, had, hmk, htmp, htee]
  simp

/-- Components of a tee pass that ended without error: the temp file holds
exactly the limited body, the client holds the same stream (decompressed
when requested), and no error source fired. -/
theorem teePass_no_err {brDecode : List Nat → List Nat} {nd : Bool} {b : Body}
    {twe cwe : Bool} {pl : Nat} {tb cb : List Nat}
    (h : teePass brDecode nd b twe cwe pl = (tb, cb, false)) :
    tb = b.bytes ∧ cb = (if nd then brDecode b.bytes else b.bytes) ∧
    b.readErr = false ∧ twe = false ∧ cwe = false := by
  unfold teePass at h
  by_cases hc : (b.readErr || twe || cwe) = true
  · simp only [hc, if_true] at h
    exact absurd (congrArg (fun t => t.2.2) h) (by simp)
  · rw [Bool.not_eq_true] at hc
    simp only [hc, Bool.false_eq_true, if_false] at h
    have h1 := congrArg (fun t : List Nat × List Nat × Bool => t.1) h
    have h2 := congrArg (fun t : List Nat × List Nat × Bool => t.2.1) h
    simp only at h1 h2
    rcases Bool.or_eq_false_iff.1 hc with ⟨hb, hcwe⟩
    rcases Bool.or_eq_false_iff.1 hb with ⟨hre, htwe⟩
    exact ⟨h1.symm, h2.symm, hre, htwe, hcwe⟩

/-- A body no longer than the limit passes through `limitBody` unchanged
(when it ends with a clean EOF). -/
theorem limitBody_of_le {n : Nat} {b : Body} (h : b.bytes.length ≤ n)
    (hre : b.readErr = false) : limitBody n b = b := by
  unfold limitBody
  split
  · next hle =>
    cases b with
    | mk bs re =>
      simp only at h hre
      subst hre
      simp [List.take_of_length_le h]
  · rfl

/-- C1 counterexample: with no declared length and a body of exactly
`maxProxySize + 1` bytes, `proxyAndCache` does NOT report an error — the
copy ends cleanly at the cap and the truncated cap-sized body is renamed
into the cache (`committed = some …`, `errLogged = false`), contradicting
the claim that such a stream is reported as an error and never committed. -/
theorem c1_counterexample :
    proxyAndCache (fun l => l) c1Env "" "u" "p" =
      .out ⟨200, List.replicate maxProxySize 0, some (List.replicate maxProxySize 0),
        TempFate.renamed, false⟩ := by
  have hlim : limitBody maxProxySize ⟨List.replicate (maxProxySize + 1) 0, false⟩ =
      ⟨List.replicate maxProxySize 0, false⟩ := by
    unfold limitBody
    rw [if_pos (by rw [List.length_replicate]; exact Nat.le_succ _)]
    rw [List.take_replicate, Nat.min_eq_left (Nat.le_succ _)]
  have htee : teePass (fun l => l)
      (hasSfx "u" ".br" && !(containsStr (toLowerStr "") "br"))
      (limitBody maxProxySize c1Resp.body) false false 0 =
      (List.replicate maxProxySize 0, List.replicate maxProxySize 0, false) := by
    have hb : c1Resp.body = ⟨List.replicate (maxProxySize + 1) 0, false⟩ := rfl
    rw [hb, hlim]
    have hnd : (hasSfx "u" ".br" && !(containsStr (toLowerStr "") "br")) = false := by
      decide
    rw [hnd]
    unfold teePass
    simp
  have h := proxy_stream_eq (fun l => l) c1Env "" "u" "p" c1Resp
    (List.replicate maxProxySize 0) (List.replicate maxProxySize 0) false
    (by decide) rfl rfl (by norm_num [c1Resp, maxProxySize]) rfl rfl rfl rfl htee
  rw [h]
  simp [c1Env]

/-- C1 as amended.  Part one is the claim as stated: a declared
Content-Length above the cap is rejected with `tooLarge` whatever the body
holds — the body is universally quantified, so no body byte is consulted.
Part two replaces the false half of the claim: a stream with no declared
length running past the cap is cut off at exactly `maxProxySize` bytes, but
the copy reports no error and the truncated body IS committed to the
cache. -/
theorem c1_amended_cap_behaviour (brDecode : List Nat → List Nat)
    (env : ProxyEnv) (ae url lp : String) (resp : UpResp)
    (hmiss : serveLocalFile brDecode env.fs ae lp = .notHandled)
    (hreq : env.reqErr = false) :
    ((maxProxySize : Int) < resp.contentLength →
      ∀ b : Body,
        proxyAndCache brDecode { env with upstream := some { resp with body := b } }
          ae url lp = .tooLarge) ∧
    (env.upstream = some resp →
     resp.contentLength = -1 → resp.status = 200 →
     env.alreadyDownloading = false → env.mkdirOK = true → env.tempOK = true →
     env.tempWriteErr = false → env.clientWriteErr = false → env.renameOK = true →
     hasSfx url ".br" = false →
     maxProxySize < resp.body.bytes.length →
     proxyAndCache brDecode env ae url lp =
       .out ⟨200, resp.body.bytes.take maxProxySize,
         some (resp.body.bytes.take maxProxySize), TempFate.renamed, false⟩ ∧
     (resp.body.bytes.take maxProxySize).length = maxProxySize) := by
  constructor
  · intro hcl b
    unfold proxyAndCache
    simp only [hmiss, hreq]
    simp [hcl]
  · intro hup hcl hst had hmk htmp htwe hcwe hrn hsfx hlen
    have hlim : limitBody maxProxySize resp.body =
        ⟨resp.body.bytes.take maxProxySize, false⟩ := by
      unfold limitBody
      rw [if_pos (Nat.le_of_lt hlen)]
    have hnd : (hasSfx url ".br" && !(containsStr (toLowerStr ae) "br")) = false := by
      simp [hsfx]
    have htee : teePass brDecode
        (hasSfx url ".br" && !(containsStr (toLowerStr ae) "br"))
        (limitBody maxProxySize resp.body) env.tempWriteErr env.clientWriteErr
        env.partialLen =
        (resp.body.bytes.take maxProxySize, resp.body.bytes.take maxProxySize,
          false) := by
      rw [hlim, hnd, htwe, hcwe]
      unfold teePass
      simp
    have h := proxy_stream_eq brDecode env ae url lp resp _ _ _ hmiss hreq hup
      (by rw [hcl]; norm_num [maxProxySize]) hst had hmk htmp htee
    rw [h]
    simp only [Bool.false_eq_true, if_false, hrn, if_true]
    refine ⟨trivial, ?_⟩
    rw [List.length_take, Nat.min_eq_left (Nat.le_of_lt hlen)]

/-- Witness for the amended C1 at the concrete over-cap environment. -/
theorem c1_amended_witness :
    proxyAndCache (fun l => l) c1Env "" "u" "p" =
      .out ⟨200, (List.replicate (maxProxySize + 1) (0 : Nat)).take maxProxySize,
        some ((List.replicate (maxProxySize + 1) (0 : Nat)).take maxProxySize),
        TempFate.renamed, false⟩ ∧
    ((List.replicate (maxProxySize + 1) (0 : Nat)).take maxProxySize).length =
      maxProxySize :=
  (c1_amended_cap_behaviour (fun l => l) c1Env "" "u" "p" c1Resp
    (by decide) rfl).2 rfl rfl rfl rfl rfl rfl rfl rfl rfl (by decide)
    (by show maxProxySize < (List.replicate (maxProxySize + 1) (0 : Nat)).length
        rw [List.length_replicate]
        exact Nat.lt_succ_self _)

/-- C4: discipline of the temp file in the shared streaming pass of
`proxyAndCache`.  Under the hypotheses that put the call on the tee branch:
a mid-stream read or write error removes the temp file and no rename
happens; a clean pass atomically renames the fully written temp file (which
holds exactly the limited origin body) to `localPath`; a rename failure
removes the temp file while the response stays a 200 with no copy error
(not a request failure).  Consequently a committed file can only arise from
the rename of a temp file holding the complete limited body, written by a
pass in which no error source fired. -/
theorem c4_temp_commit_discipline (brDecode : List Nat → List Nat)
    (env : ProxyEnv) (ae url lp : String) (resp : UpResp)
    (tb cb : List Nat) (ce : Bool)
    (hmiss : serveLocalFile brDecode env.fs ae lp = .notHandled)
    (hreq : env.reqErr = false)
    (hup : env.upstream = some resp)
    (hcl : resp.contentLength ≤ (maxProxySize : Int))
    (hst : resp.status = 200)
    (had : env.alreadyDownloading = false)
    (hmk : env.mkdirOK = true)
    (htmp : env.tempOK = true)
    (htee : teePass brDecode (hasSfx url ".br" && !(containsStr (toLowerStr ae) "br"))
      (limitBody maxProxySize resp.body) env.tempWriteErr env.clientWriteErr
      env.partialLen = (tb, cb, ce)) :
    (ce = true →
      proxyAndCache brDecode env ae url lp = .out ⟨200, cb, none, .removed, true⟩) ∧
    (ce = false → env.renameOK = true →
      proxyAndCache brDecode env ae url lp = .out ⟨200, cb, some tb, .renamed, false⟩ ∧
      tb = (limitBody maxProxySize resp.body).bytes) ∧
    (ce = false → env.renameOK = false →
      proxyAndCache brDecode env ae url lp = .out ⟨200, cb, none, .removed, false⟩) ∧
    (∀ c : List Nat,
      (proxyAndCache brDecode env ae url lp).committedFile = some c →
      (proxyAndCache brDecode env ae url lp).tempOutcome = TempFate.renamed ∧
      c = (limitBody maxProxySize resp.body).bytes ∧
      (limitBody maxProxySize resp.body).readErr = false ∧
      env.tempWriteErr = false ∧ env.clientWriteErr = false) := by
  have h := proxy_stream_eq brDecode env ae url lp resp tb cb ce hmiss hreq hup
    hcl hst had hmk htmp htee
  refine ⟨?_, ?_, ?_, ?_⟩
  · intro hce
    subst hce
    rw [h]
    simp
  · intro hce hrn
    subst hce
    rw [h]
    simp only [Bool.false_eq_true, if_false, hrn, if_true]
    exact ⟨trivial, (teePass_no_err htee).1⟩
  · intro hce hrn
    subst hce
    rw [h]
    simp [hrn]
  · intro c hc
    rw [h] at hc
    cases ce with
    | true => simp [ProxyResult.committedFile] at hc
    | false =>
      by_cases hrn : env.renameOK = true
      · simp only [Bool.false_eq_true, if_false, hrn, if_true,
          ProxyResult.committedFile, Option.some.injEq] at hc
        obtain ⟨h1, h2, h3, h4, h5⟩ := teePass_no_err htee
        rw [h]
        simp only [Bool.false_eq_true, if_false, hrn, if_true]
        exact ⟨rfl, hc ▸ h1, h3, h4, h5⟩
      · rw [Bool.not_eq_true] at hrn
        simp [hrn, ProxyResult.committedFile] at hc

/-- Witness for C4: a clean two-byte pass commits exactly the origin bytes. -/
theorem c4_witness :
    proxyAndCache (fun l => l) c4Env "" "u" "p" =
      .out ⟨200, [1, 2], some [1, 2], TempFate.renamed, false⟩ ∧
    ([1, 2] : List Nat) = (limitBody maxProxySize c4Resp.body).bytes :=
  (c4_temp_commit_discipline (fun l => l) c4Env "" "u" "p" c4Resp [1, 2] [1, 2]
    false (by decide) rfl rfl (by decide) rfl rfl rfl rfl (by decide)).2.1 rfl rfl

/-- C7: the decompressing fan-out of `proxyAndCache`.  When the origin URL
carries the ".br" suffix and the client did not declare brotli support, one
clean pass over the single upstream response (the model admits exactly one
origin exchange per call) sends the decompressed stream to the client while
the committed cache entry receives the original compressed origin bytes
verbatim. -/
theorem c7_tee_decompress (brDecode : List Nat → List Nat) (env : ProxyEnv)
    (ae url lp : String) (resp : UpResp)
    (hmiss : serveLocalFile brDecode env.fs ae lp = .notHandled)
    (hreq : env.reqErr = false)
    (hup : env.upstream = some resp)
    (hcl : resp.contentLength ≤ (maxProxySize : Int))
    (hst : resp.status = 200)
    (had : env.alreadyDownloading = false)
    (hmk : env.mkdirOK = true)
    (htmp : env.tempOK = true)
    (htwe : env.tempWriteErr = false)
    (hcwe : env.clientWriteErr = false)
    (hrn : env.renameOK = true)
    (hsfx : hasSfx url ".br" = true)
    (hae : containsStr (toLowerStr ae) "br" = false)
    (hlen : resp.body.bytes.length ≤ maxProxySize)
    (hre : resp.body.readErr = false) :
    proxyAndCache brDecode env ae url lp =
      .out ⟨200, brDecode resp.body.bytes, some resp.body.bytes,
        TempFate.renamed, false⟩ := by
  have hlim := limitBody_of_le hlen hre
  have hnd : (hasSfx url ".br" && !(containsStr (toLowerStr ae) "br")) = true := by
    simp [hsfx, hae]
  have htee : teePass brDecode
      (hasSfx url ".br" && !(containsStr (toLowerStr ae) "br"))
      (limitBody maxProxySize resp.body) env.tempWriteErr env.clientWriteErr
      env.partialLen = (resp.body.bytes, brDecode resp.body.bytes, false) := by
    rw [hlim, hnd, htwe, hcwe]
    unfold teePass
    simp [hre]
  have h := proxy_stream_eq brDecode env ae url lp resp _ _ _ hmiss hreq hup hcl
    hst had hmk htmp htee
  rw [h]
  simp [hrn]

/-- Witness for C7: the client gets the decoded stream, the cache the raw
origin bytes, in one pass. -/
theorem c7_witness :
    proxyAndCache (fun l => 7 :: l) c7Env "" "u.br" "p" =
      .out ⟨200, [7, 5, 6], some [5, 6], TempFate.renamed, false⟩ :=
  c7_tee_decompress (fun l => 7 :: l) c7Env "" "u.br" "p" c7Resp
    (by decide) rfl rfl (by decide) rfl rfl rfl rfl rfl rfl rfl
    (by decide) (by decide) (by decide) rfl

/-! Helper lemmas about the in-flight claim map. -/

/-- While a path is claimed, every further claim attempt fails and leaves
the map unchanged. -/
theorem claimAttempts_of_mem {p : String} {s : List String} (h : p ∈ s) :
    ∀ n, claimAttempts p n s = 0 := by
  intro n
  induction n with
  | zero => rfl
  | succ k ih =>
    unfold claimAttempts tryClaim
    simp only [h, if_true, if_false, Bool.false_eq_true]
    simpa using ih

/-- Exactly one of any positive number of consecutive claim attempts on an
unclaimed path succeeds. -/
theorem claimAttempts_succ_not_mem {p : String} {s : List String} (h : p ∉ s)
    (n : Nat) : claimAttempts p (n + 1) s = 1 := by
  unfold claimAttempts tryClaim
  simp only [h, if_false, if_true]
  simpa using claimAttempts_of_mem (List.mem_cons_self p s) n

/-- On every exit path, `downloadFile` leaves the in-flight map exactly as
it found it: a claim it took is released again (the deferred delete), and a
claim held by someone else is never touched. -/
theorem downloadFile_claims_eq (brDecode : List Nat → List Nat)
    (gzDecode : List Nat → Option (List Nat)) (env : DLEnv)
    (url p : String) (s : List String) :
    (downloadFile brDecode gzDecode env url p s).claims = s := by
  unfold downloadFile
  by_cases h1 : env.stat1Exists = true
  · simp [h1]
  · rw [Bool.not_eq_true] at h1
    simp only [h1, Bool.false_eq_true, if_false]
    unfold tryClaim
    by_cases hp : p ∈ s
    · simp [hp]
    · simp only [hp, if_false, if_true]
      rcases hbody : downloadFileBody brDecode gzDecode env with ⟨o, net, f⟩
      simp [hbody, releaseClaim, List.erase_cons_head]

/-- C5: the claim mechanism of `downloadFile` is exclusive and fully
released.  Starting from any map in which `p` is unclaimed, exactly one of
`n+1` consecutive atomic claim attempts on `p` succeeds (each `LoadOrStore`
is atomic, so any interleaving of concurrent claimers is such a sequence);
and a whole `downloadFile` call — over every one of its exit paths, as the
environment ranges over all outcomes — returns the in-flight map to its
prior state, releasing any claim it took. -/
theorem c5_claim_exclusive_release (brDecode : List Nat → List Nat)
    (gzDecode : List Nat → Option (List Nat)) (env : DLEnv)
    (url p : String) (s : List String) (n : Nat) (hp : p ∉ s) :
    claimAttempts p (n + 1) s = 1 ∧
    (downloadFile brDecode gzDecode env url p s).claims = s :=
  ⟨claimAttempts_succ_not_mem hp n,
   downloadFile_claims_eq brDecode gzDecode env url p s⟩

/-- Witness for C5 with two concurrent claimers on a fresh path. -/
theorem c5_witness :
    claimAttempts "d" 2 [] = 1 ∧
    (downloadFile (fun l => l) (fun l => some l)
      ⟨false, false, true, false, some ⟨200, "", [1]⟩, true, false, true⟩
      "u" "d" []).claims = [] :=
  c5_claim_exclusive_release (fun l => l) (fun l => some l)
    ⟨false, false, true, false, some ⟨200, "", [1]⟩, true, false, true⟩
    "u" "d" [] 1 (by decide)

/-- C6: the fast paths of `downloadFile`.  It returns success with no
network use and an untouched in-flight map when the destination already
exists; when the claim is already held by another fetch (deferring to it);
and when the post-claim existence re-check fires, so no fetch happens after
a concurrent download completed first. -/
theorem c6_download_idempotent (brDecode : List Nat → List Nat)
    (gzDecode : List Nat → Option (List Nat)) (env : DLEnv)
    (url p : String) (s : List String) :
    (env.stat1Exists = true →
      downloadFile brDecode gzDecode env url p s = ⟨.ok, false, none, s⟩) ∧
    (env.stat1Exists = false → p ∈ s →
      downloadFile brDecode gzDecode env url p s = ⟨.ok, false, none, s⟩) ∧
    (env.stat1Exists = false → p ∉ s → env.stat2Exists = true →
      downloadFile brDecode gzDecode env url p s = ⟨.ok, false, none, s⟩) := by
  refine ⟨?_, ?_, ?_⟩
  · intro h1
    unfold downloadFile
    simp [h1]
  · intro h1 hp
    unfold downloadFile tryClaim
    simp [h1, hp]
  · intro h1 hp h2
    unfold downloadFile tryClaim downloadFileBody
    simp [h1, hp, h2, releaseClaim, List.erase_cons_head]

/-- Witness for C6 exercising all three fast paths. -/
theorem c6_witness :
    downloadFile (fun l => l) (fun l => some l)
      ⟨true, false, true, false, none, true, false, true⟩ "u" "d" [] =
      ⟨.ok, false, none, []⟩ ∧
    downloadFile (fun l => l) (fun l => some l)
      ⟨false, false, true, false, none, true, false, true⟩ "u" "d" ["d"] =
      ⟨.ok, false, none, ["d"]⟩ ∧
    downloadFile (fun l => l) (fun l => some l)
      ⟨false, true, true, false, none, true, false, true⟩ "u" "d" ["x"] =
      ⟨.ok, false, none, ["x"]⟩ :=
  ⟨(c6_download_idempotent (fun l => l) (fun l => some l)
      ⟨true, false, true, false, none, true, false, true⟩ "u" "d" []).1 rfl,
   (c6_download_idempotent (fun l => l) (fun l => some l)
      ⟨false, false, true, false, none, true, false, true⟩ "u" "d" ["d"]).2.1 rfl
      (by decide),
   (c6_download_idempotent (fun l => l) (fun l => some l)
      ⟨false, true, true, false, none, true, false, true⟩ "u" "d" ["x"]).2.2 rfl
      (by decide) rfl⟩

/-- C10: a nil return from `downloadFile` does not imply the file exists.
With the claim on the destination held by another fetch (the path is in the
in-flight map) and the file absent (both stat checks report non-existence),
`downloadFile` returns success immediately, without network use and without
writing any file; and `downloadWithWorkers` counts exactly such an item as
downloaded. -/
theorem c10_success_without_file :
    downloadFile (fun l => l) (fun l => some l)
      ⟨false, false, true, false, none, true, false, true⟩ "u" "o/f" ["o/f"] =
      ⟨.ok, false, none, ["o/f"]⟩ ∧
    workerStep (fun l => l) (fun l => some l)
      (fun _ => ⟨false, ⟨false, false, true, false, none, true, false, true⟩⟩)
      "b" "o" (⟨0, 0, 0⟩, ["o/f"]) "f" = (⟨1, 0, 0⟩, ["o/f"]) := by
  constructor
  · decide
  · decide

/-- One worker iteration increments exactly one of the three counters. -/
theorem workerStep_one (brDecode : List Nat → List Nat)
    (gzDecode : List Nat → Option (List Nat)) (ienv : String → WItemEnv)
    (baseURL outputDir : String) (acc : WCounters × List String) (file : String) :
    (workerStep brDecode gzDecode ienv baseURL outputDir acc file).1 =
      { acc.1 with downloaded := acc.1.downloaded + 1 } ∨
    (workerStep brDecode gzDecode ienv baseURL outputDir acc file).1 =
      { acc.1 with skipped := acc.1.skipped + 1 } ∨
    (workerStep brDecode gzDecode ienv baseURL outputDir acc file).1 =
      { acc.1 with failed := acc.1.failed + 1 } := by
  unfold workerStep
  by_cases h : (ienv file).statExists = true
  · right; left
    simp [h]
  · rw [Bool.not_eq_true] at h
    simp only [h, Bool.false_eq_true, if_false]
    rcases houtcome : (downloadFile brDecode gzDecode (ienv file).dl
      (baseURL ++ "/" ++ file) (filepathJoin outputDir file) acc.2).outcome with _ | e
    · left
      simp [houtcome]
    · right; right
      simp [houtcome]

/-- One worker iteration grows the counter sum by exactly one. -/
theorem workerStep_total (brDecode : List Nat → List Nat)
    (gzDecode : List Nat → Option (List Nat)) (ienv : String → WItemEnv)
    (baseURL outputDir : String) (acc : WCounters × List String) (file : String) :
    (workerStep brDecode gzDecode ienv baseURL outputDir acc file).1.total =
      acc.1.total + 1 := by
  rcases workerStep_one brDecode gzDecode ienv baseURL outputDir acc file with
    h | h | h <;>
    (rw [h]; unfold WCounters.total; simp; omega)

/-- Folding the worker step over a queue adds the queue length to the
counter sum. -/
theorem foldl_workerStep_total (brDecode : List Nat → List Nat)
    (gzDecode : List Nat → Option (List Nat)) (ienv : String → WItemEnv)
    (baseURL outputDir : String) (files : List String) :
    ∀ acc : WCounters × List String,
    (files.foldl (workerStep brDecode gzDecode ienv baseURL outputDir) acc).1.total =
      acc.1.total + files.length := by
  induction files with
  | nil => intro acc; simp
  | cons f rest ih =>
    intro acc
    rw [List.foldl_cons, ih, workerStep_total]
    simp [List.length_cons]
    omega

/-- C8: counter discipline of `downloadWithWorkers`.  Each item increments
exactly one of {downloaded, skipped, failed}; when the run returns, the
three counters sum to the item count; and the run returns an aggregate
error naming the failure count (and the total) exactly when `failed > 0` —
individual per-item errors are absorbed into the counters. -/
theorem c8_worker_counters (brDecode : List Nat → List Nat)
    (gzDecode : List Nat → Option (List Nat)) (ienv : String → WItemEnv)
    (files : List String) (baseURL outputDir : String) (claims0 : List String) :
    (∀ (acc : WCounters × List String) (file : String),
      (workerStep brDecode gzDecode ienv baseURL outputDir acc file).1 =
        { acc.1 with downloaded := acc.1.downloaded + 1 } ∨
      (workerStep brDecode gzDecode ienv baseURL outputDir acc file).1 =
        { acc.1 with skipped := acc.1.skipped + 1 } ∨
      (workerStep brDecode gzDecode ienv baseURL outputDir acc file).1 =
        { acc.1 with failed := acc.1.failed + 1 }) ∧
    ((downloadWithWorkers brDecode gzDecode ienv files baseURL outputDir
        claims0).1.total = files.length) ∧
    ((downloadWithWorkers brDecode gzDecode ienv files baseURL outputDir
        claims0).2 = none ↔
      (downloadWithWorkers brDecode gzDecode ienv files baseURL outputDir
        claims0).1.failed = 0) ∧
    (0 < (downloadWithWorkers brDecode gzDecode ienv files baseURL outputDir
        claims0).1.failed →
      (downloadWithWorkers brDecode gzDecode ienv files baseURL outputDir
        claims0).2 =
        some ((downloadWithWorkers brDecode gzDecode ienv files baseURL outputDir
          claims0).1.failed, files.length)) := by
  refine ⟨workerStep_one brDecode gzDecode ienv baseURL outputDir, ?_, ?_, ?_⟩
  · unfold downloadWithWorkers
    simp only
    rw [foldl_workerStep_total]
    unfold WCounters.total
    simp
  · unfold downloadWithWorkers
    simp only
    by_cases h : 0 < (files.foldl (workerStep brDecode gzDecode ienv baseURL
      outputDir) (⟨0, 0, 0⟩, claims0)).1.failed
    · simp [h]
      omega
    · simp [h]
      omega
  · intro h
    unfold downloadWithWorkers at h ⊢
    simp only at h ⊢
    simp only [h, if_true]

/-- Witness for C8 on a two-item run with one skip and one failure. -/
theorem c8_witness :
    (downloadWithWorkers (fun l => l) (fun l => some l) c8IEnv ["a", "b"]
      "base" "o" []).1.total = 2 ∧
    (downloadWithWorkers (fun l => l) (fun l => some l) c8IEnv ["a", "b"]
      "base" "o" []).2 =
      some ((downloadWithWorkers (fun l => l) (fun l => some l) c8IEnv ["a", "b"]
        "base" "o" []).1.failed, 2) :=
  ⟨(c8_worker_counters (fun l => l) (fun l => some l) c8IEnv ["a", "b"]
      "base" "o" []).2.1,
   (c8_worker_counters (fun l => l) (fun l => some l) c8IEnv ["a", "b"]
      "base" "o" []).2.2.2 (by decide)⟩

/-- C9: the traversal filter is a bare substring check.  Any stripped request
path containing ".." anywhere is answered NotFound by both handlers, with the
whole environment (including any existing cache entry) universally
quantified; every path with a genuine parent-directory segment is covered;
and the check is strictly broader: the single legitimate filename
"a..b.mp3" has no parent-directory segment yet is still rejected. -/
theorem c9_substring_filter :
    (∀ (brDecode : List Nat → List Nat) (env : ProxyEnv) (dd cdn urlPath q ae : String),
        containsStr (trimPfx urlPath "/vcsky/") ".." = true →
        handleVcsky brDecode env dd cdn urlPath q ae = none) ∧
    (∀ urlPath : String, containsStr (trimPfx urlPath "/") ".." = true →
        handleRootRoute urlPath = .notFound) ∧
    (∀ p : String, hasParentSeg p = true → containsStr p ".." = true) ∧
    containsStr "a..b.mp3" ".." = true ∧
    hasParentSeg "a..b.mp3" = false ∧
    (∀ (brDecode : List Nat → List Nat) (env : ProxyEnv) (dd cdn q ae : String),
        handleVcsky brDecode env dd cdn "/vcsky/a..b.mp3" q ae = none) := by
  refine ⟨vcskyFilter_notFound, ?_, fun p h => hasParentSeg_containsStr h,
    by decide, by decide, ?_⟩
  · intro urlPath h
    unfold handleRootRoute
    by_cases hp : urlPath = "/"
    · subst hp
      exact absurd h (by decide)
    · simp [hp, h]
  · intro brDecode env dd cdn q ae
    exact vcskyFilter_notFound brDecode env dd cdn "/vcsky/a..b.mp3" q ae (by decide)

/-- Witness for C9: the first conjunct applied at a concrete request. -/
theorem c9_witness :
    handleVcsky (fun l => l)
      ⟨fun _ => StatRes.file [7], false, false, none, true, true, false, false, 0, true⟩
      "cache" "https://cdn/" "/vcsky/x/../y" "" "" = none :=
  c9_substring_filter.1 (fun l => l)
    ⟨fun _ => StatRes.file [7], false, false, none, true, true, false, false, 0, true⟩
    "cache" "https://cdn/" "/vcsky/x/../y" "" "" (by decide)
